import Mathlib

/-!
# Verification of the miausu-pp-rs hit-result resolution and performance core

This file gives a shallow embedding of the osu!standard performance
calculator of the repository (src/osu/pp.rs and
src/osu/gradual_performance.rs) and proves / refutes the specified
properties about it.

Modelling conventions:

* Rust `usize` values are modelled as `ℕ`.  Rust `usize` subtraction `a - b`
  panics on underflow (it is not saturating); a computation that can panic is
  modelled as an `Option`-returning function where `none` models the panic.
  `saturating_sub` is modelled by truncated `Nat` subtraction, which is
  saturating by definition.
* `f32` arithmetic on scores and accuracies is modelled exactly over `ℚ`
  (and over `ℝ` for the power / logarithm based performance formulas).
  `f32::round` rounds half away from zero, and `as usize` on a negative
  float saturates at zero, so `(x).round() as usize` is `(⌊x + 1/2⌋).toNat`
  for the non-negative values that occur here.
* `Option::get_or_insert(0)` is `some (o.getD 0)`, `Option::unwrap_or(d)` is
  `Option.getD`.
-/

/-- The builder `OsuPP` of src/osu/pp.rs, restricted to the fields the
hit-result resolution reads: the map (represented by its hit-object count
`mapLen`), the optional hit counts, the miss count, `passed_objects` and
the cached accuracy fraction.  `mods`, `combo` and the difficulty
attributes do not participate in hit-result resolution and are passed
separately to the functions that need them. -/
structure OsuPP where
  mapLen : ℕ
  passedObjects : Option ℕ
  n300 : Option ℕ
  n100 : Option ℕ
  n50 : Option ℕ
  nMisses : ℕ
  acc : Option ℚ
deriving DecidableEq, Repr

/-- `self.passed_objects.unwrap_or(self.map.hit_objects.len())`, the object
count used throughout src/osu/pp.rs. -/
def nObjectsOf (s : OsuPP) : ℕ :=
  s.passedObjects.getD s.mapLen

/-- The total `n300 + n100 + n50 + n_misses` of the (possibly unresolved)
builder counts, unset counts reading as `0`. -/
def sumCounts (s : OsuPP) : ℕ :=
  s.n300.getD 0 + s.n100.getD 0 + s.n50.getD 0 + s.nMisses

/-- Rust `(x).round() as usize` for the `f32` expressions of
src/osu/pp.rs, over `ℚ`: round half away from zero, then saturate negative
values to `0` (`as usize` saturates). -/
def rustRoundToNat (q : ℚ) : ℕ :=
  (Int.floor (q + 1/2)).toNat

/-- The tail of `OsuPP::assert_hitresults` (src/osu/pp.rs lines 228-229):
store `acc = (n50 + n100 * 2 + n300 * 6) / n_objects / 6`. -/
def withAcc (nObjects : ℕ) (s : OsuPP) : OsuPP :=
  let numerator : ℕ := s.n50.getD 0 + s.n100.getD 0 * 2 + s.n300.getD 0 * 6
  { s with acc := some (((numerator : ℚ) / (nObjects : ℚ)) / 6) }

/-- `OsuPP::assert_hitresults` (src/osu/pp.rs lines 199-231): when no
accuracy was supplied, fill the unset counts so that the counts and misses
total `n_objects`; the remainder goes to `n300` if unset, else to `n100`
if unset, else to `n50` if unset, and is added onto `n300` when all three
are already set.  The `remaining` computation uses `saturating_sub`, which
truncated `Nat` subtraction models exactly. -/
def OsuPP.assert_hitresults (s : OsuPP) : OsuPP :=
  if s.acc.isSome then s
  else
    let nObjects := nObjectsOf s
    let remaining :=
      nObjects - s.n300.getD 0 - s.n100.getD 0 - s.n50.getD 0 - s.nMisses
    if 0 < remaining then
      if s.n300.isNone then
        withAcc nObjects
          { s with n300 := some remaining, n100 := some (s.n100.getD 0),
                   n50 := some (s.n50.getD 0) }
      else if s.n100.isNone then
        withAcc nObjects
          { s with n100 := some remaining, n50 := some (s.n50.getD 0) }
      else if s.n50.isNone then
        withAcc nObjects { s with n50 := some remaining }
      else
        withAcc nObjects { s with n300 := some (s.n300.getD 0 + remaining) }
    else
      withAcc nObjects
        { s with n300 := some (s.n300.getD 0), n100 := some (s.n100.getD 0),
                 n50 := some (s.n50.getD 0) }

/-- The tail of `OsuPP::accuracy` (src/osu/pp.rs lines 191-194): store the
replaced counts and `acc = (6 * n300 + 2 * n100 + n50) / (6 * n_objects)`. -/
def setAccFromCounts (nObjects : ℕ) (s : OsuPP) : OsuPP :=
  let points : ℕ := 6 * s.n300.getD 0 + 2 * s.n100.getD 0 + s.n50.getD 0
  { s with acc := some ((points : ℚ) / ((6 * nObjects : ℕ) : ℚ)) }

/-- The first branch of `OsuPP::accuracy` (src/osu/pp.rs lines 146-170),
taken when `n100` or `n50` was set.  `ac` is the accuracy already divided
by 100.  Returns the new `(n300, n100, n50)`, or `none` when the unchecked
subtraction `n_objects - n100 - n50 - n_misses` (line 151) would underflow
and panic.  `missing_points` uses `saturating_sub` (line 153), modelled by
truncated subtraction. -/
def accuracyWithFixed (n100F n50F : Option ℕ) (nMisses nObjects : ℕ)
    (ac : ℚ) : Option (ℕ × ℕ × ℕ) :=
  let n100 := n100F.getD 0
  let n50 := n50F.getD 0
  let placedPoints := 2 * n100 + n50 + nMisses
  if n100 + n50 + nMisses ≤ nObjects then
    let missingObjects := nObjects - n100 - n50 - nMisses
    let missingPoints := rustRoundToNat (6 * ac * nObjects) - placedPoints
    let n300 := min missingObjects (missingPoints / 6)
    let n50b := n50 + (missingObjects - n300)
    if n50F.isSome && n100F.isNone then
      let origN50 := n50F.getD 0
      let difference := n50b - origN50
      let k := min n300 (difference / 4)
      some (n300 - k, n100 + 5 * k, n50b - 4 * k)
    else
      some (n300, n100, n50b)
  else
    none

/-- The second branch of `OsuPP::accuracy` (src/osu/pp.rs lines 171-188),
taken when neither `n100` nor `n50` was set.  Returns the new
`(n300, n100, n50)`, or `none` when one of the unchecked subtractions
`delta = target_total - (n_objects - misses)` (line 174) or
`n50 = n_objects - n300 - n100 - misses` (line 178) would underflow and
panic. -/
def accuracyFromScratch (nMisses nObjects : ℕ) (ac : ℚ) : Option (ℕ × ℕ × ℕ) :=
  let misses := min nMisses nObjects
  let targetTotal := rustRoundToNat (ac * nObjects * 6)
  if nObjects - misses ≤ targetTotal then
    let delta := targetTotal - (nObjects - misses)
    let n300 := delta / 5
    let n100 := delta % 5
    if n300 + n100 + misses ≤ nObjects then
      let n50 := nObjects - n300 - n100 - misses
      let k := min n300 (n50 / 4)
      some (n300 - k, n100 + 5 * k, n50 - 4 * k)
    else
      none
  else
    none

/-- `OsuPP::accuracy` (src/osu/pp.rs lines 141-197): resolve the hit
results from an accuracy given between `0` and `100`, keeping counts that
were already set fixed.  `none` models the panics of the unchecked
subtractions inside. -/
def OsuPP.accuracy (s : OsuPP) (accIn : ℚ) : Option OsuPP :=
  (if s.n100.isSome || s.n50.isSome then
      accuracyWithFixed s.n100 s.n50 s.nMisses (nObjectsOf s) (accIn / 100)
    else
      accuracyFromScratch s.nMisses (nObjectsOf s) (accIn / 100)).map
    fun t =>
      setAccFromCounts (nObjectsOf s)
        { s with n300 := some t.1, n100 := some t.2.1, n50 := some t.2.2 }

/-- `OsuPP::total_hits` (src/osu/pp.rs lines 393-399):
`(n300 + n100 + n50 + n_misses).min(n_objects)`. -/
def OsuPP.total_hits (s : OsuPP) : ℕ :=
  min (s.n300.getD 0 + s.n100.getD 0 + s.n50.getD 0 + s.nMisses) (nObjectsOf s)

/-- The `combo_based_miss_count` computed by
`OsuPP::calculate_effective_miss_count` (src/osu/pp.rs lines 411-423)
before capping: `(max_combo - 0.1 * n_sliders) / max(combo, 1)` when the
map has sliders and the achieved combo falls short of that threshold,
else `0`.  `combo` is `self.combo.unwrap_or(attributes.max_combo)`. -/
def comboBasedMissCount (maxCombo nSliders : ℕ) (combo : Option ℕ) : ℚ :=
  if 0 < nSliders then
    if ((combo.getD maxCombo : ℕ) : ℚ) < (maxCombo : ℚ) - 1/10 * (nSliders : ℚ)
    then ((maxCombo : ℚ) - 1/10 * (nSliders : ℚ))
          / max ((combo.getD maxCombo : ℕ) : ℚ) 1
    else 0
  else 0

/-- `OsuPP::calculate_effective_miss_count` (src/osu/pp.rs lines 410-427):
the combo-based estimate, capped by `n100 + n50 + n_misses` and floored by
the raw miss count.  The difficulty attributes `max_combo`, `n_sliders`
and the builder fields `combo`, `n100`, `n50`, `n_misses` are passed as
arguments. -/
def calculate_effective_miss_count (maxCombo nSliders : ℕ) (combo : Option ℕ)
    (n100 n50 : Option ℕ) (nMisses : ℕ) : ℚ :=
  max
    (min (comboBasedMissCount maxCombo nSliders combo)
      (((n100.getD 0 : ℕ) : ℚ) + ((n50.getD 0 : ℕ) : ℚ) + (nMisses : ℚ)))
    (nMisses : ℚ)

/-- `OsuScoreState` of src/osu/gradual_performance.rs. -/
structure OsuScoreState where
  maxCombo : ℕ
  n300 : ℕ
  n100 : ℕ
  n50 : ℕ
  nMisses : ℕ
deriving DecidableEq, Repr

/-- `OsuScoreState::total_hits` (src/osu/gradual_performance.rs lines
31-34). -/
def OsuScoreState.total_hits (st : OsuScoreState) : ℕ :=
  st.n300 + st.n100 + st.n50 + st.nMisses

/-- `OsuScoreState::accuracy` (src/osu/gradual_performance.rs lines
37-49): `0` when the total hit count is `0`, else
`(6 * n300 + 2 * n100 + n50) / (6 * total_hits)`. -/
def OsuScoreState.accuracy (st : OsuScoreState) : ℚ :=
  if st.total_hits = 0 then 0
  else ((6 * st.n300 + 2 * st.n100 + st.n50 : ℕ) : ℚ)
    / ((6 * st.total_hits : ℕ) : ℚ)

/-- Modelled from the spec: `OsuGradualDifficultyAttributes` is not under
src/ (only src/osu/gradual_performance.rs calls it).  Per the spec it is
the gradual difficulty iterator over the per-prefix difficulty attributes
of the map; `total` is the number of attribute targets it can yield and
`idx` counts the items it has consumed so far.  The attributes themselves
are represented by the index of the target they belong to, which is all
the advancement claims need. -/
structure GradualDifficulty where
  total : ℕ
  idx : ℕ
deriving DecidableEq, Repr

/-- Modelled from the spec: `nth` on the missing iterator, with the
standard Rust `Iterator::nth(k)` semantics the call site relies on:
consume `k + 1` items and return the last one, or consume everything and
return `none` when fewer than `k + 1` items remain. -/
def GradualDifficulty.nth (g : GradualDifficulty) (k : ℕ) :
    Option ℕ × GradualDifficulty :=
  if g.idx + k < g.total then
    (some (g.idx + k), { g with idx := g.idx + k + 1 })
  else
    (none, { g with idx := g.total })

/-- `OsuGradualPerformanceAttributes::process_next_n_objects`
(src/osu/gradual_performance.rs lines 107-124), restricted to its
advancement behaviour: `sub = (idx == 0) as usize` and the result of
`self.difficulty.nth(n.saturating_sub(sub))`.  The performance evaluation
performed on a `some` result does not affect which calls succeed. -/
def process_next_n_objects (g : GradualDifficulty) (n : ℕ) :
    Option ℕ × GradualDifficulty :=
  let sub := if g.idx = 0 then 1 else 0
  g.nth (n - sub)

/-- `OsuGradualPerformanceAttributes::process_next_object`
(src/osu/gradual_performance.rs lines 94-99): `process_next_n_objects`
with `n = 1`. -/
def process_next_object (g : GradualDifficulty) : Option ℕ × GradualDifficulty :=
  process_next_n_objects g 1

/-! ## Properties of the resolved counts -/

/-- Helper: a successful run of the no-fixed-counts branch of
`OsuPP::accuracy` yields counts summing to `n_objects` (together with the
capped miss count) and total score points equal to the rounded target. -/
lemma fromScratch_props {nM N : ℕ} {ac : ℚ} {t : ℕ × ℕ × ℕ}
    (h : accuracyFromScratch nM N ac = some t) :
    t.1 + t.2.1 + t.2.2 + min nM N = N ∧
    6 * t.1 + 2 * t.2.1 + t.2.2 = rustRoundToNat (ac * N * 6) := by
  simp only [accuracyFromScratch] at h
  split_ifs at h with h1 h2
  rw [Option.some_inj] at h
  subst h
  dsimp only
  omega

/-- Helper: a successful run of the fixed-counts branch of
`OsuPP::accuracy` implies the fixed counts fit into `n_objects`, and the
resolved counts together with the raw miss count sum to `n_objects`. -/
lemma withFixed_props {n100F n50F : Option ℕ} {nM N : ℕ} {ac : ℚ}
    {t : ℕ × ℕ × ℕ}
    (h : accuracyWithFixed n100F n50F nM N ac = some t) :
    n100F.getD 0 + n50F.getD 0 + nM ≤ N ∧
    t.1 + t.2.1 + t.2.2 + nM = N := by
  simp only [accuracyWithFixed] at h
  split_ifs at h with h1 h2
  · rw [Option.some_inj] at h
    subst h
    dsimp only
    omega
  · rw [Option.some_inj] at h
    subst h
    dsimp only
    omega

/-- Claim C9: a `ScoreState` whose total hit count is zero has accuracy
exactly `0` rather than a division by zero. -/
theorem c9_zero_total_accuracy (st : OsuScoreState)
    (h : st.n300 + st.n100 + st.n50 + st.nMisses = 0) :
    st.accuracy = 0 := by
  have ht : st.total_hits = 0 := h
  simp [OsuScoreState.accuracy, ht]

/-- Witness for C9 at the all-zero score state. -/
theorem c9_zero_total_accuracy_witness :
    OsuScoreState.accuracy ⟨0, 0, 0, 0, 0⟩ = 0 :=
  c9_zero_total_accuracy ⟨0, 0, 0, 0, 0⟩ rfl

/-- Claim C10: `OsuPP::total_hits` is the minimum of
`n300 + n100 + n50 + n_misses` and the object count, hence never exceeds
the object count even when the supplied counts oversum. -/
theorem c10_total_hits_capped (s : OsuPP) :
    s.total_hits = min (sumCounts s) (nObjectsOf s) ∧
    s.total_hits ≤ nObjectsOf s :=
  ⟨rfl, min_le_right _ _⟩

/-- Claim C8, evaluated at the failing input: on a fresh iterator over a
3-object sequence, a call with `n = 5` returns `none` instead of clamping
`n` to the remaining 3 objects as the function's own documentation (and
the spec) promise; a second call with `n = 1` from `idx = 1` consumes two
further objects instead of one; a call after exhaustion does return
`none`. -/
theorem c8_gradual_advancement_bug :
    (process_next_n_objects ⟨3, 0⟩ 5).1 = none ∧
    (process_next_n_objects ⟨3, 1⟩ 1).2.idx = 3 ∧
    (process_next_n_objects ⟨3, 3⟩ 1).1 = none := by
  decide

/-- Claim C5: the effective miss count is at least the raw miss count, at
most `n100 + n50 + n_misses`, and equals the raw miss count whenever the
map has no sliders or the achieved combo reaches
`max_combo - 0.1 * n_sliders`. -/
theorem c5_effective_miss_bounds (maxCombo nSliders : ℕ) (combo : Option ℕ)
    (n100 n50 : Option ℕ) (m : ℕ) :
    (m : ℚ) ≤ calculate_effective_miss_count maxCombo nSliders combo n100 n50 m ∧
    calculate_effective_miss_count maxCombo nSliders combo n100 n50 m
      ≤ ((n100.getD 0 : ℕ) : ℚ) + ((n50.getD 0 : ℕ) : ℚ) + (m : ℚ) ∧
    ((nSliders = 0 ∨
        (maxCombo : ℚ) - 1/10 * (nSliders : ℚ) ≤ ((combo.getD maxCombo : ℕ) : ℚ)) →
      calculate_effective_miss_count maxCombo nSliders combo n100 n50 m = (m : ℚ)) := by
  refine ⟨le_max_right _ _, ?_, ?_⟩
  · apply max_le (le_trans (min_le_right _ _) (le_refl _))
    have h1 : (0:ℚ) ≤ ((n100.getD 0 : ℕ) : ℚ) := Nat.cast_nonneg _
    have h2 : (0:ℚ) ≤ ((n50.getD 0 : ℕ) : ℚ) := Nat.cast_nonneg _
    linarith
  · intro h
    have hcb : comboBasedMissCount maxCombo nSliders combo = 0 := by
      rcases h with h | h
      · simp [comboBasedMissCount, h]
      · rw [comboBasedMissCount]
        split_ifs with h1 h2
        · exact absurd h2 (not_lt.mpr h)
        · rfl
        · rfl
    rw [calculate_effective_miss_count, hcb]
    have hS : (0:ℚ) ≤ ((n100.getD 0 : ℕ) : ℚ) + ((n50.getD 0 : ℕ) : ℚ) + (m : ℚ) := by
      positivity
    rw [min_eq_left hS, max_eq_right (by positivity : (0:ℚ) ≤ (m:ℚ))]

/-- Witness for C5 on a sliderless map with 2 misses. -/
theorem c5_effective_miss_bounds_witness :
    (2 : ℚ) ≤ calculate_effective_miss_count 0 0 none none none 2 ∧
    calculate_effective_miss_count 0 0 none none none 2 = (2 : ℚ) :=
  ⟨(c5_effective_miss_bounds 0 0 none none none 2).1,
   (c5_effective_miss_bounds 0 0 none none none 2).2.2 (Or.inl rfl)⟩

/-- Helper: evaluate `rustRoundToNat` from floor bounds (used to evaluate
the model on concrete inputs, since rational arithmetic is settled by
`norm_num` rather than kernel reduction). -/
lemma rustRoundToNat_eq (q : ℚ) (n : ℕ) (h1 : (n : ℚ) ≤ q + 1/2)
    (h2 : q + 1/2 < (n : ℚ) + 1) : rustRoundToNat q = n := by
  have hf : Int.floor (q + 1/2) = (n : ℤ) := by
    rw [Int.floor_eq_iff]
    constructor
    · exact_mod_cast h1
    · push_cast
      exact h2
  rw [rustRoundToNat, hf, Int.toNat_natCast]

/-- Counterexample to claim C1 as stated: with `object_count = 10` and
`n300` preset to `20`, `assert_hitresults` leaves the counts summing to
`20`, not to the object count `10`. -/
theorem c1_counterexample :
    sumCounts (OsuPP.assert_hitresults ⟨10, none, some 20, none, none, 0, none⟩) = 20 ∧
    nObjectsOf ⟨10, none, some 20, none, none, 0, none⟩ = 10 := by
  decide

/-- Claim C1 (amended): whenever the preset counts and misses do not
already exceed the object count, `assert_hitresults` resolves the counts
to sum exactly to the object count; every successful accuracy-based
resolution with `n_misses ≤ object_count` does the same; and in the
concrete scenario `object_count = 1234`, `n300 = 1000`, `n100 = 200`,
`n50 = 30` the auto-filled total is exactly `1234`. -/
theorem c1_resolved_total :
    (∀ s : OsuPP, s.acc = none → sumCounts s ≤ nObjectsOf s →
        sumCounts s.assert_hitresults = nObjectsOf s) ∧
    (∀ (s s' : OsuPP) (a : ℚ), s.nMisses ≤ nObjectsOf s →
        s.accuracy a = some s' → sumCounts s' = nObjectsOf s) ∧
    sumCounts (OsuPP.assert_hitresults ⟨0, some 1234, some 1000, some 200, some 30, 0, none⟩) = 1234 := by
  refine ⟨?_, ?_, by decide⟩
  · intro s hacc hle
    rw [OsuPP.assert_hitresults, hacc]
    simp only [Option.isSome_none, Bool.false_eq_true, if_false]
    have hrem :
        nObjectsOf s - s.n300.getD 0 - s.n100.getD 0 - s.n50.getD 0 - s.nMisses
          = nObjectsOf s - sumCounts s := by
      rw [sumCounts]; omega
    rw [sumCounts] at hle
    split_ifs with h1 h2 h3 h4 <;>
      simp_all [sumCounts, withAcc, Option.isNone_iff_eq_none] <;>
      omega
  · intro s s' a hm h
    rw [OsuPP.accuracy] at h
    by_cases hb : (s.n100.isSome || s.n50.isSome) = true
    · rw [if_pos hb] at h
      obtain ⟨t, ht, hft⟩ := Option.map_eq_some'.mp h
      obtain ⟨hle, hsum⟩ := withFixed_props ht
      subst hft
      simp only [sumCounts, setAccFromCounts, Option.getD_some]
      omega
    · rw [if_neg hb] at h
      obtain ⟨t, ht, hft⟩ := Option.map_eq_some'.mp h
      obtain ⟨hsum, _⟩ := fromScratch_props ht
      subst hft
      simp only [sumCounts, setAccFromCounts, Option.getD_some]
      omega

/-- Witness for C1 at concrete inputs: `assert_hitresults` on
`object_count = 5`, `n300 = 1`, one miss; and accuracy resolution on
`object_count = 2` at accuracy 100. -/
theorem c1_resolved_total_witness :
    sumCounts (OsuPP.assert_hitresults ⟨5, none, some 1, none, none, 1, none⟩)
      = nObjectsOf ⟨5, none, some 1, none, none, 1, none⟩ ∧
    sumCounts (⟨2, none, some 2, some 0, some 0, 0, some 1⟩ : OsuPP)
      = nObjectsOf ⟨2, none, none, none, none, 0, none⟩ :=
  ⟨c1_resolved_total.1 ⟨5, none, some 1, none, none, 1, none⟩ rfl (by decide),
   c1_resolved_total.2.1 ⟨2, none, none, none, none, 0, none⟩
     ⟨2, none, some 2, some 0, some 0, 0, some 1⟩ 100 (by decide)
     (by norm_num [OsuPP.accuracy, accuracyFromScratch, nObjectsOf,
           setAccFromCounts, rustRoundToNat_eq (12 : ℚ) 12 (by norm_num) (by norm_num)])⟩

/-- Counterexample to claim C3 as stated: with `object_count = 10` and only
`n100 = 2` preset, the remainder 8 is put into `n300` (the highest-value
unset slot), not into `n50` (the lowest-value unset slot), which stays 0. -/
theorem c3_counterexample :
    (OsuPP.assert_hitresults ⟨10, none, none, some 2, none, 0, none⟩).n300 = some 8 ∧
    (OsuPP.assert_hitresults ⟨10, none, none, some 2, none, 0, none⟩).n50 = some 0 := by
  decide

/-- Claim C3 (amended): `assert_hitresults` fills the whole remainder into
the highest-value unset slot — `n300` first, else `n100`, else `n50` — and
folds it into `n300` when all three are set; unset slots that do not
receive the remainder become `0` and counts never go negative (the
remainder itself is computed with saturating subtraction). -/
theorem c3_remainder_fill_order (s : OsuPP) (r : ℕ) (hacc : s.acc = none)
    (hrdef : r = nObjectsOf s - s.n300.getD 0 - s.n100.getD 0 - s.n50.getD 0 - s.nMisses)
    (hr : 0 < r) :
    (s.n300 = none →
      (OsuPP.assert_hitresults s).n300 = some r ∧
      (OsuPP.assert_hitresults s).n100 = some (s.n100.getD 0) ∧
      (OsuPP.assert_hitresults s).n50 = some (s.n50.getD 0)) ∧
    (s.n300.isSome = true → s.n100 = none →
      (OsuPP.assert_hitresults s).n300 = s.n300 ∧
      (OsuPP.assert_hitresults s).n100 = some r ∧
      (OsuPP.assert_hitresults s).n50 = some (s.n50.getD 0)) ∧
    (s.n300.isSome = true → s.n100.isSome = true → s.n50 = none →
      (OsuPP.assert_hitresults s).n300 = s.n300 ∧
      (OsuPP.assert_hitresults s).n100 = s.n100 ∧
      (OsuPP.assert_hitresults s).n50 = some r) ∧
    (s.n300.isSome = true → s.n100.isSome = true → s.n50.isSome = true →
      (OsuPP.assert_hitresults s).n300 = some (s.n300.getD 0 + r) ∧
      (OsuPP.assert_hitresults s).n100 = s.n100 ∧
      (OsuPP.assert_hitresults s).n50 = s.n50) := by
  obtain ⟨len, po, o3, o1, o5, m, oacc⟩ := s
  subst hacc
  subst hrdef
  rcases o3 with _ | v3 <;> rcases o1 with _ | v1 <;> rcases o5 with _ | v5 <;>
    refine ⟨fun h3 => ?_, fun h3 h1 => ?_, fun h3 h1 h5 => ?_, fun h3 h1 h5 => ?_⟩ <;>
    simp_all [OsuPP.assert_hitresults, withAcc, nObjectsOf]

/-- Witness for C3: `object_count = 10`, `n100 = 2` preset, remainder 8
goes to `n300`. -/
theorem c3_remainder_fill_order_witness :
    (OsuPP.assert_hitresults ⟨10, none, none, some 2, none, 0, none⟩).n300 = some 8 ∧
    (OsuPP.assert_hitresults ⟨10, none, none, some 2, none, 0, none⟩).n100 = some 2 ∧
    (OsuPP.assert_hitresults ⟨10, none, none, some 2, none, 0, none⟩).n50 = some 0 :=
  (c3_remainder_fill_order ⟨10, none, none, some 2, none, 0, none⟩ 8 rfl (by decide)
    (by decide)).1 rfl

/-- Counterexample to claim C4 as stated: the subtraction computing
`missing_objects` is not saturated — with `object_count = 10` and
`n100 = 20` preset, accuracy-based resolution underflows
`n_objects - n100 - n50 - n_misses` and panics (modelled by `none`). -/
theorem c4_counterexample :
    OsuPP.accuracy ⟨10, none, none, some 20, none, 0, none⟩ 50 = none := by
  decide

/-- Claim C4 (amended): of the three subtractions named by the claim only
`missing_points` is saturated; `missing_objects` and `delta` use unchecked
subtraction.  Accuracy-based resolution is therefore total only on inputs
where those subtractions cannot underflow: the fixed-count branch succeeds
whenever `n100 + n50 + n_misses ≤ object_count`, and the no-fixed-counts
branch succeeds whenever the rounded points target is at least
`object_count - misses` and the derived `n300 + n100 + misses` fit into
`object_count`. -/
theorem c4_saturation_only_missing_points :
    (∀ (s : OsuPP) (a : ℚ), (s.n100.isSome || s.n50.isSome) = true →
        s.n100.getD 0 + s.n50.getD 0 + s.nMisses ≤ nObjectsOf s →
        (s.accuracy a).isSome = true) ∧
    (∀ (s : OsuPP) (a : ℚ), s.n100 = none → s.n50 = none →
        nObjectsOf s - min s.nMisses (nObjectsOf s)
          ≤ rustRoundToNat (a / 100 * (nObjectsOf s : ℚ) * 6) →
        (rustRoundToNat (a / 100 * (nObjectsOf s : ℚ) * 6)
              - (nObjectsOf s - min s.nMisses (nObjectsOf s))) / 5
            + (rustRoundToNat (a / 100 * (nObjectsOf s : ℚ) * 6)
              - (nObjectsOf s - min s.nMisses (nObjectsOf s))) % 5
            + min s.nMisses (nObjectsOf s) ≤ nObjectsOf s →
        (s.accuracy a).isSome = true) := by
  constructor
  · intro s a hb hle
    rw [OsuPP.accuracy, if_pos hb]
    have hsome :
        (accuracyWithFixed s.n100 s.n50 s.nMisses (nObjectsOf s) (a / 100)).isSome
          = true := by
      simp only [accuracyWithFixed]
      rw [if_pos hle]
      split_ifs <;> rfl
    obtain ⟨t, ht⟩ := Option.isSome_iff_exists.mp hsome
    rw [ht]
    rfl
  · intro s a h100 h50 hg1 hg2
    have hb : (s.n100.isSome || s.n50.isSome) = false := by
      rw [h100, h50]; rfl
    rw [OsuPP.accuracy, hb]
    rw [if_neg (by decide : ¬ (false = true))]
    have hsome :
        (accuracyFromScratch s.nMisses (nObjectsOf s) (a / 100)).isSome = true := by
      simp only [accuracyFromScratch]
      rw [if_pos hg1, if_pos hg2]
      rfl
    obtain ⟨t, ht⟩ := Option.isSome_iff_exists.mp hsome
    rw [ht]
    rfl

/-- Witness for C4 at concrete inputs: both branches succeed — the
fixed-count branch with `n100 = 2` in 10 objects, and the no-fixed-counts
branch with accuracy 50 on 10 objects. -/
theorem c4_saturation_only_missing_points_witness :
    (OsuPP.accuracy ⟨10, none, none, some 2, none, 0, none⟩ 50).isSome = true ∧
    (OsuPP.accuracy ⟨10, none, none, none, none, 0, none⟩ 50).isSome = true :=
  ⟨c4_saturation_only_missing_points.1 ⟨10, none, none, some 2, none, 0, none⟩ 50
      (by decide) (by decide),
   c4_saturation_only_missing_points.2 ⟨10, none, none, none, none, 0, none⟩ 50
      rfl rfl
      (by norm_num [nObjectsOf, rustRoundToNat_eq (30 : ℚ) 30 (by norm_num) (by norm_num)])
      (by norm_num [nObjectsOf, rustRoundToNat_eq (30 : ℚ) 30 (by norm_num) (by norm_num)])⟩

/-- Helper: the rounded value is within `1/2` of its argument (for
non-negative arguments, where the `toNat` saturation is inactive). -/
lemma rustRoundToNat_close (q : ℚ) (hq : 0 ≤ q) :
    |((rustRoundToNat q : ℕ) : ℚ) - q| ≤ 1/2 := by
  have h0 : (0:ℤ) ≤ Int.floor (q + 1/2) := Int.floor_nonneg.mpr (by linarith)
  have hTx : ((rustRoundToNat q : ℕ) : ℚ) = ((Int.floor (q + 1/2) : ℤ) : ℚ) := by
    rw [rustRoundToNat]
    exact_mod_cast congrArg (fun z : ℤ => (z : ℚ)) (Int.toNat_of_nonneg h0)
  have hub : ((Int.floor (q + 1/2) : ℤ) : ℚ) ≤ q + 1/2 := Int.floor_le _
  have hlb : q + 1/2 < ((Int.floor (q + 1/2) : ℤ) : ℚ) + 1 := Int.lt_floor_add_one _
  rw [hTx, abs_le]
  constructor <;> linarith

/-- Helper: for at least 9 objects, the quotient of the rounded points
target by `6 * N` is within one percentage point of the requested
accuracy. -/
lemma round_quotient_close (a : ℚ) (N : ℕ) (ha : 0 ≤ a) (hn : 9 ≤ N) :
    |100 * (((rustRoundToNat (a / 100 * (N : ℚ) * 6) : ℕ) : ℚ)
        / ((6 * N : ℕ) : ℚ)) - a| ≤ 1 := by
  have hx0 : (0:ℚ) ≤ a / 100 * (N : ℚ) * 6 :=
    mul_nonneg (mul_nonneg (div_nonneg ha (by norm_num)) (Nat.cast_nonneg N))
      (by norm_num)
  have habs := rustRoundToNat_close _ hx0
  have hNpos : (0:ℚ) < (N : ℚ) := by
    exact_mod_cast (by omega : 0 < N)
  have hN9 : (9:ℚ) ≤ (N : ℚ) := by exact_mod_cast hn
  generalize hT : ((rustRoundToNat (a / 100 * (N : ℚ) * 6) : ℕ) : ℚ) = T at habs ⊢
  have hC : ((6 * N : ℕ) : ℚ) = 6 * (N : ℚ) := by push_cast; ring
  rw [hC]
  have key : 100 * (T / (6 * (N : ℚ))) - a
      = 100 / (6 * (N : ℚ)) * (T - a / 100 * (N : ℚ) * 6) := by
    field_simp
    ring
  rw [key, abs_mul, abs_of_pos (show (0:ℚ) < 100 / (6 * (N : ℚ)) by positivity)]
  calc 100 / (6 * (N : ℚ)) * |T - a / 100 * (N : ℚ) * 6|
      ≤ 100 / (6 * (N : ℚ)) * (1/2) :=
        mul_le_mul_of_nonneg_left habs (by positivity)
    _ ≤ 1 := by
        rw [div_mul_eq_mul_div, div_le_one (by positivity)]
        linarith

/-- Counterexample to claim C2 as stated: with `object_count = 1` (total
≥ 1) and target accuracy `25.5`, resolution succeeds with one `n100`, so
the resolved accuracy is `100/3 ≈ 33.3`, which is more than one
percentage point away from the target. -/
theorem c2_counterexample :
    OsuPP.accuracy ⟨1, none, none, none, none, 0, none⟩ (51/2)
      = some ⟨1, none, some 0, some 1, some 0, 0, some (1/3)⟩ ∧
    1 < |100 * (1/3 : ℚ) - 51/2| := by
  constructor
  · norm_num [OsuPP.accuracy, accuracyFromScratch, nObjectsOf, setAccFromCounts,
      rustRoundToNat_eq (153/100 : ℚ) 2 (by norm_num) (by norm_num)]
  · rw [lt_abs]
    left
    norm_num

/-- Claim C2 (amended): for at least 9 objects, a non-negative target
accuracy, and no fixed `n100`/`n50`, every successful accuracy-based
resolution produces a weighted accuracy within one percentage point of the
target (for fewer than 9 objects the rounding error alone can exceed one
point, and resolutions that panic produce nothing). -/
theorem c2_resolved_accuracy_close (s s' : OsuPP) (a : ℚ)
    (h100 : s.n100 = none) (h50 : s.n50 = none)
    (hn : 9 ≤ nObjectsOf s) (ha : 0 ≤ a)
    (h : s.accuracy a = some s') :
    ∃ q : ℚ, s'.acc = some q ∧ |100 * q - a| ≤ 1 := by
  have hb : (s.n100.isSome || s.n50.isSome) = false := by
    rw [h100, h50]; rfl
  rw [OsuPP.accuracy, hb] at h
  rw [if_neg (by decide : ¬ (false = true))] at h
  obtain ⟨t, ht, hft⟩ := Option.map_eq_some'.mp h
  obtain ⟨-, hpoints⟩ := fromScratch_props ht
  subst hft
  have hacc' : (setAccFromCounts (nObjectsOf s)
      { s with n300 := some t.1, n100 := some t.2.1, n50 := some t.2.2 }).acc
      = some (((6 * t.1 + 2 * t.2.1 + t.2.2 : ℕ) : ℚ)
          / ((6 * nObjectsOf s : ℕ) : ℚ)) := rfl
  refine ⟨_, hacc', ?_⟩
  rw [hpoints]
  exact round_quotient_close a (nObjectsOf s) ha hn

set_option maxRecDepth 100000 in
/-- Helper: the no-fixed-counts branch evaluated at the concrete scenario
`object_count = 1234`, target accuracy `97.5`, no misses. -/
lemma accuracyFromScratch_at_1234 :
    accuracyFromScratch 0 1234 (195/2 / 100) = some (1188, 45, 1) := by
  have hT : rustRoundToNat (195/2 / 100 * ((1234 : ℕ) : ℚ) * 6) = 7219 :=
    rustRoundToNat_eq _ 7219 (by norm_num) (by norm_num)
  unfold accuracyFromScratch
  rw [hT]
  simp only [min_def]
  norm_num

set_option maxRecDepth 100000 in
/-- Helper: the fixed-counts branch evaluated at the concrete scenario
`object_count = 1234`, `n50` fixed at 30, target accuracy `97.5`. -/
lemma accuracyWithFixed_at_1234 :
    accuracyWithFixed none (some 30) 0 1234 (195/2 / 100) = some (1197, 5, 32) := by
  have hT : rustRoundToNat (6 * (195/2 / 100) * ((1234 : ℕ) : ℚ)) = 7219 :=
    rustRoundToNat_eq _ 7219 (by norm_num) (by norm_num)
  unfold accuracyWithFixed
  rw [hT]
  simp only [min_def]
  norm_num

/-- Witness for C2 at the concrete scenario `object_count = 1234`, target
accuracy `97.5`: the resolved state has accuracy `7219/7404`, within one
percentage point of the target. -/
theorem c2_resolved_accuracy_close_witness :
    ∃ q : ℚ,
      (⟨0, some 1234, some 1188, some 45, some 1, 0, some (7219/7404)⟩ : OsuPP).acc
        = some q ∧
      |100 * q - 195/2| ≤ 1 :=
  c2_resolved_accuracy_close ⟨0, some 1234, none, none, none, 0, none⟩
    ⟨0, some 1234, some 1188, some 45, some 1, 0, some (7219/7404)⟩ (195/2)
    rfl rfl (by decide) (by norm_num)
    (by simp only [OsuPP.accuracy, nObjectsOf, Option.getD_some]
        rw [if_neg (by decide :
          ¬ (((none : Option ℕ).isSome || (none : Option ℕ).isSome) = true))]
        rw [accuracyFromScratch_at_1234]
        simp only [Option.map_some', setAccFromCounts, nObjectsOf,
          Option.getD_some, OsuPP.mk.injEq]
        norm_num)

/-- Claim C6: in the concrete scenario `object_count = 1234`, `n50` fixed
at 30, target accuracy `97.5`, the rebalancing pass yields `n50 = 32`
(within 4 of its fixed value 30) and a resolved accuracy `7224/7404`
within one percentage point of the target; the resolved state is reached
through the n300-to-n100/n50 trade (`n300 = 1197`, `n100 = 5`). -/
theorem c6_n50_rebalance :
    OsuPP.accuracy ⟨0, some 1234, none, none, some 30, 0, none⟩ (195/2)
      = some ⟨0, some 1234, some 1197, some 5, some 32, 0, some (7224/7404)⟩ ∧
    ((32 : ℤ) - 30).natAbs ≤ 4 ∧
    |100 * (7224/7404 : ℚ) - 195/2| ≤ 1 := by
  refine ⟨?_, by decide, ?_⟩
  · simp only [OsuPP.accuracy, nObjectsOf, Option.getD_some]
    rw [if_pos (by decide :
      (((none : Option ℕ).isSome || ((some 30 : Option ℕ)).isSome) = true))]
    rw [accuracyWithFixed_at_1234]
    simp only [Option.map_some', setAccFromCounts, nObjectsOf,
      Option.getD_some, OsuPP.mk.injEq]
    norm_num
  · rw [abs_le]
    constructor <;> norm_num

/-! ## The miss penalty and the total performance value -/

/-- `OsuPP::calculate_miss_penalty` (src/osu/pp.rs lines 401-407) over
`ℝ`, with the `total_hits` denominator as an explicit argument:
`0.97 * (1 - (effective_miss_count / total_hits)^0.5)^(1 + effective_miss_count / 1.5)`. -/
noncomputable def calculate_miss_penalty (totalHits effectiveMissCount : ℝ) : ℝ :=
  0.97 * (1 - (effectiveMissCount / totalHits) ^ (0.5 : ℝ))
    ^ (1 + effectiveMissCount / 1.5)

/-- `calculate_miss_penalty` as the method on the builder, with the
denominator `self.total_hits()` (ties claims C7 and C10 together). -/
noncomputable def OsuPP.miss_penalty (s : OsuPP) (effectiveMissCount : ℝ) : ℝ :=
  calculate_miss_penalty (s.total_hits : ℝ) effectiveMissCount

/-- The factor the aim and speed values are multiplied by
(src/osu/pp.rs lines 253-257 and 322-326): the miss penalty when
`effective_miss_count > 0`, and `1` (no change) otherwise. -/
noncomputable def missFactor (totalHits effectiveMissCount : ℝ) : ℝ :=
  if 0 < effectiveMissCount then calculate_miss_penalty totalHits effectiveMissCount
  else 1

/-- Modelled from the spec: `OsuPP::calculate` and the final combination
of the sub-values are not under src/ (only the sub-value computations
are).  Per spec §4.6 the total is the generalized power mean with
`p = 1.1` of the aim, speed, accuracy and flashlight sub-values:
`(vAim^1.1 + vSpeed^1.1 + vAcc^1.1 + vFl^1.1)^(1/1.1)`. -/
noncomputable def pp_total (vAim vSpeed vAcc vFl : ℝ) : ℝ :=
  (vAim ^ (1.1 : ℝ) + vSpeed ^ (1.1 : ℝ) + vAcc ^ (1.1 : ℝ) + vFl ^ (1.1 : ℝ))
    ^ ((1 : ℝ) / 1.1)

/-- Modelled from the spec: the dependence of the total performance value
on the effective miss count `e` — the aim, speed and flashlight values are
non-negative base values times the miss factor (src/osu/pp.rs lines
253-257, 322-326; the flashlight value per spec §4.6), the accuracy value
does not depend on the miss count, and a global multiplier `gm` scales the
combined total. -/
noncomputable def ppTotalWithMisses
    (baseAim baseSpeed baseFl vAcc gm totalHits e : ℝ) : ℝ :=
  gm * pp_total (baseAim * missFactor totalHits e)
    (baseSpeed * missFactor totalHits e) vAcc (baseFl * missFactor totalHits e)

/-- Helper: the miss penalty is non-negative for effective miss counts
between 0 and the total hit count. -/
lemma miss_penalty_nonneg (t e : ℝ) (h0 : 0 ≤ e) (het : e ≤ t) (ht : 0 < t) :
    0 ≤ calculate_miss_penalty t e := by
  have h1 : e / t ≤ 1 := (div_le_one ht).mpr het
  have h2 : (e / t) ^ (0.5 : ℝ) ≤ 1 :=
    Real.rpow_le_one (div_nonneg h0 ht.le) h1 (by norm_num)
  have hb : 0 ≤ 1 - (e / t) ^ (0.5 : ℝ) := by linarith
  have := Real.rpow_nonneg hb (1 + e / 1.5)
  unfold calculate_miss_penalty
  nlinarith

/-- Helper: the miss penalty never exceeds 1. -/
lemma miss_penalty_le_one (t e : ℝ) (h0 : 0 ≤ e) (het : e ≤ t) (ht : 0 < t) :
    calculate_miss_penalty t e ≤ 1 := by
  have h1 : e / t ≤ 1 := (div_le_one ht).mpr het
  have h2 : (e / t) ^ (0.5 : ℝ) ≤ 1 :=
    Real.rpow_le_one (div_nonneg h0 ht.le) h1 (by norm_num)
  have hb : 0 ≤ 1 - (e / t) ^ (0.5 : ℝ) := by linarith
  have hble1 : 1 - (e / t) ^ (0.5 : ℝ) ≤ 1 := by
    have := Real.rpow_nonneg (div_nonneg h0 ht.le) (0.5 : ℝ)
    linarith
  have hq : (0:ℝ) ≤ 1 + e / 1.5 := by
    have := div_nonneg h0 (by norm_num : (0:ℝ) ≤ 1.5)
    linarith
  have hp1 : (1 - (e / t) ^ (0.5 : ℝ)) ^ (1 + e / 1.5) ≤ 1 :=
    Real.rpow_le_one hb hble1 hq
  unfold calculate_miss_penalty
  nlinarith

/-- Helper: the miss penalty is non-increasing in the effective miss
count on `[0, total_hits]`. -/
lemma miss_penalty_antitone (t e1 e2 : ℝ) (h0 : 0 ≤ e1) (h12 : e1 ≤ e2)
    (h2t : e2 ≤ t) (ht : 0 < t) :
    calculate_miss_penalty t e2 ≤ calculate_miss_penalty t e1 := by
  have h01 : 0 ≤ e1 / t := div_nonneg h0 ht.le
  have h02 : 0 ≤ e2 / t := div_nonneg (h0.trans h12) ht.le
  have hd12 : e1 / t ≤ e2 / t := by gcongr
  have hr12 : (e1 / t) ^ (0.5 : ℝ) ≤ (e2 / t) ^ (0.5 : ℝ) :=
    Real.rpow_le_rpow h01 hd12 (by norm_num)
  have hb2nn : 0 ≤ 1 - (e2 / t) ^ (0.5 : ℝ) := by
    have h1 : e2 / t ≤ 1 := (div_le_one ht).mpr h2t
    have h2 := Real.rpow_le_one h02 h1 (by norm_num : (0:ℝ) ≤ 0.5)
    linarith
  have hb21 : 1 - (e2 / t) ^ (0.5 : ℝ) ≤ 1 - (e1 / t) ^ (0.5 : ℝ) := by linarith
  have hb2le1 : 1 - (e2 / t) ^ (0.5 : ℝ) ≤ 1 := by
    have := Real.rpow_nonneg h02 (0.5 : ℝ)
    linarith
  have hq1 : (0:ℝ) < 1 + e1 / 1.5 := by
    have := div_nonneg h0 (by norm_num : (0:ℝ) ≤ 1.5)
    linarith
  have hq2 : (0:ℝ) < 1 + e2 / 1.5 := by
    have := div_nonneg (h0.trans h12) (by norm_num : (0:ℝ) ≤ 1.5)
    linarith
  have hq12 : 1 + e1 / 1.5 ≤ 1 + e2 / 1.5 := by
    have : e1 / 1.5 ≤ e2 / 1.5 := by gcongr
    linarith
  have step1 : (1 - (e2 / t) ^ (0.5 : ℝ)) ^ (1 + e2 / 1.5)
      ≤ (1 - (e2 / t) ^ (0.5 : ℝ)) ^ (1 + e1 / 1.5) := by
    rcases eq_or_lt_of_le hb2nn with hz | hpos
    · rw [← hz, Real.zero_rpow (ne_of_gt hq2), Real.zero_rpow (ne_of_gt hq1)]
    · exact Real.rpow_le_rpow_of_exponent_ge hpos hb2le1 hq12
  have step2 : (1 - (e2 / t) ^ (0.5 : ℝ)) ^ (1 + e1 / 1.5)
      ≤ (1 - (e1 / t) ^ (0.5 : ℝ)) ^ (1 + e1 / 1.5) :=
    Real.rpow_le_rpow hb2nn hb21 hq1.le
  unfold calculate_miss_penalty
  have hcomb := step1.trans step2
  nlinarith

/-- Helper: the miss factor (penalty, or 1 when no effective misses) is
non-negative on the relevant domain. -/
lemma missFactor_nonneg (t e : ℝ) (h0 : 0 ≤ e) (het : e ≤ t) (ht : 0 < t) :
    0 ≤ missFactor t e := by
  unfold missFactor
  split_ifs with h
  · exact miss_penalty_nonneg t e h0 het ht
  · norm_num

/-- Helper: the miss factor is non-increasing in the effective miss count
on `[0, total_hits]`. -/
lemma missFactor_antitone (t e1 e2 : ℝ) (h0 : 0 ≤ e1) (h12 : e1 ≤ e2)
    (h2t : e2 ≤ t) (ht : 0 < t) :
    missFactor t e2 ≤ missFactor t e1 := by
  unfold missFactor
  split_ifs with h2 h1 h1
  · exact miss_penalty_antitone t e1 e2 h0 h12 h2t ht
  · exact miss_penalty_le_one t e2 (h0.trans h12) h2t ht
  · exact absurd (lt_of_lt_of_le h1 h12) h2
  · exact le_refl 1

/-- Helper: the spec's power-mean total is monotone in each non-negative
sub-value. -/
lemma pp_total_mono {a b c d a' b' c' d' : ℝ}
    (ha : 0 ≤ a') (hb : 0 ≤ b') (hc : 0 ≤ c') (hd : 0 ≤ d')
    (h1 : a' ≤ a) (h2 : b' ≤ b) (h3 : c' ≤ c) (h4 : d' ≤ d) :
    pp_total a' b' c' d' ≤ pp_total a b c d := by
  unfold pp_total
  have e1 : a' ^ (1.1 : ℝ) ≤ a ^ (1.1 : ℝ) := Real.rpow_le_rpow ha h1 (by norm_num)
  have e2 : b' ^ (1.1 : ℝ) ≤ b ^ (1.1 : ℝ) := Real.rpow_le_rpow hb h2 (by norm_num)
  have e3 : c' ^ (1.1 : ℝ) ≤ c ^ (1.1 : ℝ) := Real.rpow_le_rpow hc h3 (by norm_num)
  have e4 : d' ^ (1.1 : ℝ) ≤ d ^ (1.1 : ℝ) := Real.rpow_le_rpow hd h4 (by norm_num)
  have n1 := Real.rpow_nonneg ha (1.1 : ℝ)
  have n2 := Real.rpow_nonneg hb (1.1 : ℝ)
  have n3 := Real.rpow_nonneg hc (1.1 : ℝ)
  have n4 := Real.rpow_nonneg hd (1.1 : ℝ)
  exact Real.rpow_le_rpow (by linarith) (by linarith) (by norm_num)

/-- Helper: the effective miss count is at least the raw miss count. -/
lemma effective_miss_count_ge_misses (maxCombo nSliders : ℕ) (combo : Option ℕ)
    (n100 n50 : Option ℕ) (m : ℕ) :
    (m : ℚ) ≤ calculate_effective_miss_count maxCombo nSliders combo n100 n50 m :=
  le_max_right _ _

/-- Helper: the effective miss count is monotone in the raw miss count. -/
lemma effective_miss_count_mono (maxCombo nSliders : ℕ) (combo : Option ℕ)
    (n100 n50 : Option ℕ) {m1 m2 : ℕ} (hm : m1 ≤ m2) :
    calculate_effective_miss_count maxCombo nSliders combo n100 n50 m1
      ≤ calculate_effective_miss_count maxCombo nSliders combo n100 n50 m2 := by
  unfold calculate_effective_miss_count
  have hmq : (m1 : ℚ) ≤ (m2 : ℚ) := by exact_mod_cast hm
  exact max_le_max (min_le_min (le_refl _) (by linarith)) hmq

/-- Claim C7: holding everything else fixed (non-negative base aim, speed,
flashlight and accuracy values, a non-negative global multiplier, and a
positive total-hits denominator at least the effective miss count),
increasing the raw miss count does not increase the total performance
value: the effective miss count is monotone in `n_miss` and the miss
penalty factor `0.97 * (1 - (e/total)^0.5)^(1 + e/1.5)` applied to the
aim, speed and flashlight values is non-increasing in it. -/
theorem c7_pp_total_monotone_in_misses
    (A S F vAcc gm t : ℝ)
    (hA : 0 ≤ A) (hS : 0 ≤ S) (hF : 0 ≤ F) (hAcc : 0 ≤ vAcc) (hgm : 0 ≤ gm)
    (ht : 0 < t)
    (maxCombo nSliders : ℕ) (combo : Option ℕ) (n100 n50 : Option ℕ)
    (m1 m2 : ℕ) (hm : m1 ≤ m2)
    (h2t : ((calculate_effective_miss_count maxCombo nSliders combo n100 n50 m2 : ℚ) : ℝ) ≤ t) :
    ppTotalWithMisses A S F vAcc gm t
        ((calculate_effective_miss_count maxCombo nSliders combo n100 n50 m2 : ℚ) : ℝ)
      ≤ ppTotalWithMisses A S F vAcc gm t
        ((calculate_effective_miss_count maxCombo nSliders combo n100 n50 m1 : ℚ) : ℝ) := by
  have h10 : (0:ℝ) ≤ ((calculate_effective_miss_count maxCombo nSliders combo n100 n50 m1 : ℚ) : ℝ) := by
    have h : (0:ℚ) ≤ calculate_effective_miss_count maxCombo nSliders combo n100 n50 m1 :=
      le_trans (Nat.cast_nonneg m1)
        (effective_miss_count_ge_misses maxCombo nSliders combo n100 n50 m1)
    exact_mod_cast h
  have h12 : ((calculate_effective_miss_count maxCombo nSliders combo n100 n50 m1 : ℚ) : ℝ)
      ≤ ((calculate_effective_miss_count maxCombo nSliders combo n100 n50 m2 : ℚ) : ℝ) := by
    exact_mod_cast effective_miss_count_mono maxCombo nSliders combo n100 n50 hm
  set e1 := ((calculate_effective_miss_count maxCombo nSliders combo n100 n50 m1 : ℚ) : ℝ)
  set e2 := ((calculate_effective_miss_count maxCombo nSliders combo n100 n50 m2 : ℚ) : ℝ)
  have hmf2nn : 0 ≤ missFactor t e2 :=
    missFactor_nonneg t e2 (h10.trans h12) h2t ht
  have hmf : missFactor t e2 ≤ missFactor t e1 :=
    missFactor_antitone t e1 e2 h10 h12 h2t ht
  unfold ppTotalWithMisses
  refine mul_le_mul_of_nonneg_left ?_ hgm
  exact pp_total_mono (mul_nonneg hA hmf2nn) (mul_nonneg hS hmf2nn) hAcc
    (mul_nonneg hF hmf2nn) (mul_le_mul_of_nonneg_left hmf hA)
    (mul_le_mul_of_nonneg_left hmf hS) (le_refl _)
    (mul_le_mul_of_nonneg_left hmf hF)

/-- Witness for C7: unit base values, total hits 10, a sliderless map, and
miss counts 2 versus 3. -/
theorem c7_pp_total_monotone_in_misses_witness :
    ppTotalWithMisses 1 1 1 1 1 10
        ((calculate_effective_miss_count 0 0 none none none 3 : ℚ) : ℝ)
      ≤ ppTotalWithMisses 1 1 1 1 1 10
        ((calculate_effective_miss_count 0 0 none none none 2 : ℚ) : ℝ) :=
  c7_pp_total_monotone_in_misses 1 1 1 1 1 10 (by norm_num) (by norm_num)
    (by norm_num) (by norm_num) (by norm_num) (by norm_num) 0 0 none none none
    2 3 (by norm_num)
    (by rw [show calculate_effective_miss_count 0 0 none none none 3 = 3 by
          norm_num [calculate_effective_miss_count, comboBasedMissCount, min_def, max_def]]
        norm_num)
